import Mathlib

/-!
Verification of the noobcontroller protocol engine (src/main.rs).

The source is a single-file Rust driver for a Pro Controller.  Its I/O layer
(hidapi writes / timed reads, SPI flash reads) is embedded here as explicit
oracles: a `write` oracle mapping the outbound frame to a result, a `reads`
oracle mapping (attempt index, timeout in ms) to the result of
`hid.read_timeout` together with the contents of the receive buffer after
that read, and an `spi` oracle mapping (address, size) to the result of
`read_spi`.  Machine integers are modelled as `Nat` (with an explicit
`% 2 ^ 16` where the 16-bit multiplication in `center_sticks` can overflow),
`f32` arithmetic on small integral values is modelled exactly over `ℚ`, and
fallible operations return `Except String`.
-/

namespace ProController

/-- Rust `dst[i..i+src.len()].copy_from_slice(&src)`: write the list `s` into
`l` starting at index `i`. -/
def setSlice : List Nat → Nat → List Nat → List Nat
  | l, _, [] => l
  | l, i, a :: rest => setSlice (l.set i a) (i + 1) rest

theorem setSlice_length (s : List Nat) : ∀ (l : List Nat) (i : Nat),
    (setSlice l i s).length = l.length := by
  induction s with
  | nil => intro l i; rfl
  | cons a rest ih => intro l i; simp [setSlice, ih]

/-- The constant rumble-neutral pattern `default_buf` in `subcommand`. -/
def default_buf : List Nat := [0x0, 0x1, 0x40, 0x40, 0x0, 0x1, 0x40, 0x40]

/-- The outbound 48-byte frame `buf_` built by `subcommand`: report id 0x01,
sequence number, rumble pattern at bytes 2..9, payload from byte 11,
subcommand id at byte 10 (writes in source order, later writes win). -/
def subcommandFrame (count sc : Nat) (send : List Nat) : List Nat :=
  ((((setSlice (setSlice (List.replicate 48 0) 2 default_buf) 11 send).set 10 sc).set
      1 count).set 0 1)

/-- The sequence-counter update in `subcommand`:
`if self.global_count == 0xf { 0 } else { global_count + 1 }`. -/
def nextCount (c : Nat) : Nat := if c = 0xf then 0 else c + 1

/-- One timed read: the result of `hid.read_timeout` and the contents of the
receive buffer after that read.  The transport oracle maps the attempt index
and the timeout in milliseconds to this pair. -/
def ReadOut : Type := Except String Nat × (Nat → Nat)

/-- The buffer predicate on which the retry loop of `subcommand` stops early:
`recv[0] == 0x21 || recv[14] == sc` (the break condition negates the
conjunction `recv[0] != 0x21 && recv[14] != sc`). -/
def acceptRead (sc : Nat) (reads : Nat → Nat → ReadOut) (j : Nat) : Prop :=
  (reads j 100).2 0 = 0x21 ∨ (reads j 100).2 14 = sc

instance (sc : Nat) (reads : Nat → Nat → ReadOut) (j : Nat) :
    Decidable (acceptRead sc reads j) := by
  unfold acceptRead; infer_instance

/-- The retry loop of `subcommand`, returning the index of the last read
performed: starting from attempt `i` (with `tries = i + 1` after the read),
it repeats while `tries < 10 && recv[0] != 0x21 && recv[14] != sc`. -/
def scStop (sc : Nat) (reads : Nat → Nat → ReadOut) (i : Nat) : Nat :=
  if h : i + 1 < 10 ∧ (reads i 100).2 0 ≠ 0x21 ∧ (reads i 100).2 14 ≠ sc then
    scStop sc reads (i + 1)
  else i
termination_by 10 - i
decreasing_by omega

/-- `ProController::subcommand`: builds the outbound frame, advances the
sequence counter (before the write, hence regardless of its outcome), writes,
then runs the timed-read retry loop; fails iff the write fails or the last
read fails, otherwise returns the final receive-buffer contents.  Returns
(operation result, new sequence counter). -/
def subcommand (c sc : Nat) (send : List Nat)
    (write : List Nat → Except String Unit) (reads : Nat → Nat → ReadOut) :
    Except String (Nat → Nat) × Nat :=
  let c' := nextCount c
  match write (subcommandFrame c sc send) with
  | .error e => (.error e, c')
  | .ok _ =>
      let i := scStop sc reads 0
      match (reads i 100).1 with
      | .error e => (.error e, c')
      | .ok _ => (.ok ((reads i 100).2), c')

/-- `ProController::center_sticks`.  `f32` arithmetic is modelled exactly over
`ℚ`: all raw samples and calibration fields are 12-bit integers, for which
every `f32` operation performed here is exact apart from the final sum
`dx*dx + dy*dy`, whose rounding (only possible above `2^24 > 4095^2`) cannot
change the comparison against a threshold below `2^24`.  The deadzone square
`dz * dz` is 16-bit multiplication in the source (`u16`), hence the
`% 2 ^ 16`; only the resulting `u16` is converted to `f32`. -/
def center_sticks (vals cal : List Nat) (dz : Nat) : ℚ × ℚ :=
  let t := cal
  let dx : ℚ := (vals.getD 0 0 : ℚ) - (t.getD 2 0 : ℚ)
  let dy : ℚ := (vals.getD 1 0 : ℚ) - (t.getD 3 0 : ℚ)
  if |dx * dx + dy * dy| < ((dz * dz % 2 ^ 16 : Nat) : ℚ) then (0, 0)
  else
    (dx / (if 0 < dx then (t.getD 0 0 : ℚ) else (t.getD 4 0 : ℚ)),
     dy / (if 0 < dy then (t.getD 1 0 : ℚ) else (t.getD 5 0 : ℚ)))

/-- Byte `k` of `i32::to_le_bytes(a)`: the two's-complement representation is
`a mod 2^32`, taken little-endian. -/
def i32LeByte (a : Int) (k : Nat) : Nat :=
  (a % (2 ^ 32 : Nat)).toNat / 2 ^ (8 * k) % 2 ^ 8

/-- The subcommand payload built by `read_spi`: `cmd` starts as
`[0xff, 0xff, 0x00, 0x00, size]` and `cmd[0..4]` is then overwritten with
`from.to_le_bytes()`. -/
def readSpiCmd (a : Int) (size : Nat) : List Nat :=
  setSlice [0xff, 0xff, 0x00, 0x00, size] 0
    [i32LeByte a 0, i32LeByte a 1, i32LeByte a 2, i32LeByte a 3]

/-- The fixed report length `REPORT_LEN = 48`: `buf_` in `read_spi` is a
`[u8; REPORT_LEN]` array, so its length is 48 regardless of the exchange. -/
def REPORT_LEN : Nat := 48

/-- `ProController::read_spi`, over an exchange oracle `ex` standing for
`self.subcommand(sc, cmd, &mut buf_)` with a fresh zeroed 48-byte `buf_`
(`ex` returns the buffer contents on success).  Rejects sizes above `0x1d`
before any exchange; otherwise extracts the slice `buf_[20..20+size]`.
`some r` is a normal return; `none` models the Rust slice panic when the
range end `20 + size` exceeds the 48-byte buffer (which the size guard
permits at `size = 0x1d` exactly). -/
def read_spi (a : Int) (size : Nat)
    (ex : Nat → List Nat → Except String (List Nat)) :
    Option (Except String (List Nat)) :=
  if 0x1d < size then some (.error ("Reading size > 0x1d"))
  else
    match ex 0x10 (readSpiCmd a size) with
    | .error e => some (.error e)
    | .ok reply =>
        if 20 + size ≤ REPORT_LEN then some (.ok ((reply.drop 20).take size))
        else none

/-- The mutable calibration state of `ProController` (the fields of the
struct other than the transport handle and the sequence counter). -/
structure Ctrl where
  lstick_cal : List Nat
  rstick_cal : List Nat
  ldeadzone : Nat
  rdeadzone : Nat
deriving DecidableEq

/-- The six packed-12-bit assignments of `read_stick_calibration`:
`stick_cal[stick_indexes[k]] = ...` with
`stick_indexes = if side { [0,1,2,3,4,5] } else { [2,3,4,5,0,1] }`. -/
def decodeStickCal (side : Bool) (buf cal : List Nat) : List Nat :=
  let idx : List Nat := if side then [0, 1, 2, 3, 4, 5] else [2, 3, 4, 5, 0, 1]
  let b : Nat → Nat := fun i => buf.getD i 0
  (((((cal.set (idx.getD 0 0) ((b 1 <<< 8) &&& 0xF00 ||| b 0)).set
      (idx.getD 1 0) ((b 2 <<< 4) ||| (b 1 >>> 4))).set
      (idx.getD 2 0) ((b 4 <<< 8) &&& 0xF00 ||| b 3)).set
      (idx.getD 3 0) ((b 5 <<< 4) ||| (b 4 >>> 4))).set
      (idx.getD 4 0) ((b 7 <<< 8) &&& 0xF00 ||| b 6)).set
      (idx.getD 5 0) ((b 8 <<< 4) ||| (b 7 >>> 4))

/-- The deadzone decode in `read_stick_calibration`:
`(u16::from(buf_[4]) << 8) & 0xF00 | u16::from(buf_[3])`. -/
def decodeDeadzone (buf : List Nat) : Nat :=
  (buf.getD 4 0 <<< 8) &&& 0xF00 ||| buf.getD 3 0

/-- Tail of `read_stick_calibration` after the calibration block `buf` has
been selected: decode `buf` into the side's stick array, then read 16 bytes
from the deadzone address and decode the deadzone.  Also returns the list of
`(address, size)` flash reads issued. -/
def rscFinish (spi : Int → Nat → Except String (List Nat)) (deadzone_address : Int)
    (side : Bool) (st : Ctrl) (buf : List Nat) (reads : List (Int × Nat)) :
    Except String Nat × Ctrl × List (Int × Nat) :=
  let st' :=
    if side then { st with lstick_cal := decodeStickCal true buf st.lstick_cal }
    else { st with rstick_cal := decodeStickCal false buf st.rstick_cal }
  match spi deadzone_address 16 with
  | .error e => (.error e, st', reads ++ [(deadzone_address, 16)])
  | .ok dbuf => (.ok (decodeDeadzone dbuf), st', reads ++ [(deadzone_address, 16)])

/-- `ProController::read_stick_calibration`, over an `spi` oracle standing for
`self.read_spi(address, size)`.  Reads 9 bytes at the user address; if every
byte is `0xff` or `0x00` (`found` stays false) it reads 9 bytes at the
factory address instead; decodes the chosen block, then reads and decodes the
deadzone.  Returns (result carrying the deadzone, state after the mutations
performed so far, flash reads issued). -/
def read_stick_calibration (spi : Int → Nat → Except String (List Nat))
    (user_address factory_address deadzone_address : Int) (side : Bool)
    (st : Ctrl) : Except String Nat × Ctrl × List (Int × Nat) :=
  match spi user_address 9 with
  | .error e => (.error e, st, [(user_address, 9)])
  | .ok ubuf =>
      let found := ubuf.any (fun i => !(i == 0xff || i == 0x00))
      if found then
        rscFinish spi deadzone_address side st ubuf [(user_address, 9)]
      else
        match spi factory_address 9 with
        | .error e => (.error e, st, [(user_address, 9), (factory_address, 9)])
        | .ok fbuf =>
            rscFinish spi deadzone_address side st fbuf
              [(user_address, 9), (factory_address, 9)]

/-- `ProController::calibrate`: left stick first (user 0x8012, factory 0x603d,
deadzone 0x6086), then right stick (user 0x801d, factory 0x6046, deadzone
0x6098); `self.ldeadzone` / `self.rdeadzone` are assigned from the respective
results, and `?` propagates the first error. -/
def calibrate (spi : Int → Nat → Except String (List Nat)) (st : Ctrl) :
    Except String Unit × Ctrl :=
  match read_stick_calibration spi 0x8012 0x603d 0x6086 true st with
  | (.error e, st1, _) => (.error e, st1)
  | (.ok ldz, st1, _) =>
      let st1' := { st1 with ldeadzone := ldz }
      match read_stick_calibration spi 0x801d 0x6046 0x6098 false st1' with
      | (.error e, st2, _) => (.error e, st2)
      | (.ok rdz, st2, _) => (.ok (), { st2 with rdeadzone := rdz })

/-- The shared 3-byte to 2-times-12-bit unpack primitive, as written in the
telemetry loop of `main`:
`(raw[0] | ((raw[1] & 0xf) << 8), (raw[1] >> 4) | (raw[2] << 4))`. -/
def unpack (b : List Nat) : Nat × Nat :=
  (b.getD 0 0 ||| ((b.getD 1 0 &&& 0xf) <<< 8),
   (b.getD 1 0 >>> 4) ||| (b.getD 2 0 <<< 4))

/-- Modelled from the spec: the repository contains no pack function; the spec
postulates "a matching pack function" as the round-trip partner of the 3-byte
to 2-times-12-bit unpack primitive.  Packs two 12-bit values into three bytes:
low 8 bits of `a`, then the high nibble of `a` beside the low nibble of `b`,
then the high 8 bits of `b`. -/
def pack (a b : Nat) : List Nat :=
  [a &&& 0xff, (a >>> 8) ||| ((b &&& 0xf) <<< 4), b >>> 4]

/-! ## Helper lemmas about the subcommand retry loop -/

theorem scStop_run (sc : Nat) (reads : Nat → Nat → ReadOut) :
    ∀ (d i : Nat), i + d ≤ 9 →
    (∀ j, i ≤ j → j < i + d → ¬ acceptRead sc reads j) →
    (acceptRead sc reads (i + d) ∨ i + d = 9) →
    scStop sc reads i = i + d := by
  intro d
  induction d with
  | zero =>
      intro i _ _ hstop
      have hneg : ¬ (i + 1 < 10 ∧ (reads i 100).2 0 ≠ 0x21 ∧
          (reads i 100).2 14 ≠ sc) := by
        rcases hstop with h | h
        · rcases h with h | h
          · exact fun hc => hc.2.1 h
          · exact fun hc => hc.2.2 h
        · intro hc; omega
      rw [scStop, dif_neg hneg]
      omega
  | succ d ih =>
      intro i hle hmiss hstop
      have hcond : i + 1 < 10 ∧ (reads i 100).2 0 ≠ 0x21 ∧
          (reads i 100).2 14 ≠ sc := by
        refine ⟨by omega, ?_, ?_⟩
        · exact fun h0 => hmiss i (le_refl i) (by omega) (Or.inl h0)
        · exact fun h14 => hmiss i (le_refl i) (by omega) (Or.inr h14)
      rw [scStop, dif_pos hcond]
      have harg : i + (d + 1) = (i + 1) + d := by omega
      rw [harg] at hstop ⊢
      exact ih (i + 1) (by omega) (fun j hj hj' => hmiss j (by omega) (by omega)) hstop

theorem scStop_le (sc : Nat) (reads : Nat → Nat → ReadOut) :
    ∀ (d i : Nat), i + d = 9 → scStop sc reads i ≤ 9 := by
  intro d
  induction d with
  | zero =>
      intro i hi
      rw [scStop, dif_neg (fun hc => by omega)]
      omega
  | succ d ih =>
      intro i hi
      rw [scStop]
      split
      · exact ih (i + 1) (by omega)
      · omega

theorem scStop_exit (sc : Nat) (reads : Nat → Nat → ReadOut) :
    ∀ (d i : Nat), 10 - i ≤ d → scStop sc reads i + 1 < 10 →
      acceptRead sc reads (scStop sc reads i) := by
  intro d
  induction d with
  | zero =>
      intro i hi
      rw [scStop, dif_neg (fun hc => by omega)]
      intro h10
      omega
  | succ d ih =>
      intro i hi
      rw [scStop]
      split
      · exact ih (i + 1) (by omega)
      · intro h10
        rename_i h
        unfold acceptRead
        by_contra hc
        push_neg at hc
        exact h ⟨h10, hc.1, hc.2⟩

theorem subcommand_snd (c sc : Nat) (send : List Nat)
    (write : List Nat → Except String Unit) (reads : Nat → Nat → ReadOut) :
    (subcommand c sc send write reads).2 = nextCount c := by
  unfold subcommand
  cases write (subcommandFrame c sc send) with
  | error e => rfl
  | ok u =>
      cases h : (reads (scStop sc reads 0) 100).1 with
      | error e => simp [h]
      | ok m => simp [h]

theorem subcommandFrame_getD_one (c sc : Nat) (send : List Nat) :
    (subcommandFrame c sc send).getD 1 0 = c := by
  have hlen : ((setSlice (setSlice (List.replicate 48 0) 2 default_buf) 11
      send).set 10 sc).length = 48 := by
    simp [setSlice_length]
  unfold subcommandFrame
  rw [List.getD_eq_getElem?_getD]
  rw [List.getElem?_set_ne (by omega : (0 : Nat) ≠ 1)]
  rw [List.getElem?_set_self (by omega : 1 < _)]
  rfl

/-! ## Claim theorems: subcommand channel -/

/-- Claim C1: the retry loop of `subcommand` keeps retrying only while the
reply mismatches on BOTH fields (report id and echoed subcommand id, the two
mismatch checks joined by logical AND), so the reply buffer is accepted as
soon as its byte 0 equals 0x21 OR its byte 14 equals `sc`; a reply matching
on a single field is accepted, and when the first `k` replies mismatch on
both fields and reply `k` (for any `k ≤ 9`, covering the 9-failures-then-
success scenario at `k = 9`) matches on at least one field and its read
succeeded, the exchange succeeds returning that reply; moreover any stop
before the retry budget is exhausted happens at an accepted reply. -/
theorem subcommand_accepts_on_single_field_match
    (c sc k : Nat) (send : List Nat) (write : List Nat → Except String Unit)
    (reads : Nat → Nat → ReadOut)
    (hw : write (subcommandFrame c sc send) = .ok ())
    (hk : k ≤ 9)
    (hmiss : ∀ j, j < k → (reads j 100).2 0 ≠ 0x21 ∧ (reads j 100).2 14 ≠ sc)
    (hmatch : (reads k 100).2 0 = 0x21 ∨ (reads k 100).2 14 = sc)
    (n : Nat) (hok : (reads k 100).1 = .ok n) :
    scStop sc reads 0 = k ∧
      (subcommand c sc send write reads).1 = .ok ((reads k 100).2) ∧
      (∀ m, m = scStop sc reads 0 → m + 1 < 10 → acceptRead sc reads m) := by
  have h1 : scStop sc reads 0 = k := by
    have h := scStop_run sc reads k 0 (by omega)
      (fun j h0 hj hacc => by
        rcases hacc with h | h
        · exact (hmiss j (by omega)).1 h
        · exact (hmiss j (by omega)).2 h)
      (by left; simpa using hmatch)
    simpa using h
  refine ⟨h1, ?_, ?_⟩
  · simp only [subcommand, hw, h1, hok]
  · intro m hm h10
    subst hm
    exact scStop_exit sc reads 10 0 (by omega) h10

/-- A read oracle whose replies always mismatch (buffer all zeros). -/
def creads0 : Nat → Nat → ReadOut := fun _ _ => (.ok 0, fun _ => 0)

/-- A read oracle with nine double-mismatching replies followed by a reply
matching on both the report id and the echoed subcommand id 5. -/
def creads1 : Nat → Nat → ReadOut :=
  fun i _ =>
    if i < 9 then (.ok 48, fun _ => 0)
    else (.ok 48, fun j => if j = 0 then 0x21 else if j = 14 then 5 else 0)

/-- Witness for C1: nine double mismatches, then a full match on the tenth
timed read; the exchange succeeds and returns that frame. -/
theorem subcommand_accepts_on_single_field_match_witness :
    (subcommand 0 5 [] (fun _ => .ok ()) creads1).1 = .ok ((creads1 9 100).2) := by
  have h := subcommand_accepts_on_single_field_match 0 5 9 [] (fun _ => .ok ())
    creads1 rfl (by omega)
    (fun j hj => by refine ⟨?_, ?_⟩ <;> simp [creads1, hj])
    (Or.inl rfl) 48 rfl
  exact h.2.1

/-- Claim C4: `subcommand` advances the sequence counter from `c` to `c + 1`
for `c` in 0..14 and from 15 to 0, on every call regardless of the write or
read outcome (the counter update is threaded through every branch), and the
outbound frame carries the pre-advance value `c` in byte 1. -/
theorem subcommand_sequence_counter_wraps (c sc : Nat) (send : List Nat)
    (write : List Nat → Except String Unit) (reads : Nat → Nat → ReadOut) :
    (c ≤ 14 → (subcommand c sc send write reads).2 = c + 1) ∧
    (c = 15 → (subcommand c sc send write reads).2 = 0) ∧
    (subcommandFrame c sc send).getD 1 0 = c := by
  refine ⟨?_, ?_, subcommandFrame_getD_one c sc send⟩
  · intro hc
    rw [subcommand_snd, nextCount, if_neg (by omega)]
  · intro hc
    rw [subcommand_snd, nextCount, if_pos hc]

/-- Witness for C4 at counter value 3: the counter advances to 4 and the
outbound frame carries 3 in byte 1. -/
theorem subcommand_sequence_counter_wraps_witness :
    (subcommand 3 5 [] (fun _ => .ok ()) creads0).2 = 4 ∧
      (subcommandFrame 3 5 []).getD 1 0 = 3 :=
  ⟨(subcommand_sequence_counter_wraps 3 5 [] (fun _ => .ok ()) creads0).1 (by omega),
   (subcommand_sequence_counter_wraps 3 5 [] (fun _ => .ok ()) creads0).2.2⟩

/-- Claim C8: `subcommand` performs at most 10 timed reads (the last read has
index at most 9), returns an error exactly when the write fails or the final
timed read (the one at the stopping index) fails, and when all 10 replies
mismatch but the last read succeeded it returns Ok with the last read buffer
left in the receive buffer. -/
theorem subcommand_retry_budget_and_error_condition (c sc : Nat)
    (send : List Nat) (write : List Nat → Except String Unit)
    (reads : Nat → Nat → ReadOut) :
    scStop sc reads 0 ≤ 9 ∧
    ((∃ e, (subcommand c sc send write reads).1 = .error e) ↔
      (∃ e, write (subcommandFrame c sc send) = .error e) ∨
        (∃ e, (reads (scStop sc reads 0) 100).1 = .error e)) ∧
    ((∀ j, j ≤ 9 → ¬ acceptRead sc reads j) →
      write (subcommandFrame c sc send) = .ok () → ∀ n,
      (reads 9 100).1 = .ok n →
      (subcommand c sc send write reads).1 = .ok ((reads 9 100).2)) := by
  refine ⟨scStop_le sc reads 9 0 rfl, ?_, ?_⟩
  · cases hw : write (subcommandFrame c sc send) with
    | error e => simp [subcommand, hw]
    | ok u =>
        cases hr : (reads (scStop sc reads 0) 100).1 with
        | error e => simp [subcommand, hw, hr]
        | ok m => simp [subcommand, hw, hr]
  · intro hnone hw n hok
    have h9 : scStop sc reads 0 = 9 := by
      have h := scStop_run sc reads 9 0 (by omega)
        (fun j h0 hj => hnone j (by omega)) (Or.inr rfl)
      simpa using h
    simp only [subcommand, hw, h9, hok]

/-- Witness for C8: with every reply mismatching and every read succeeding,
the exchange returns Ok with the tenth read's buffer. -/
theorem subcommand_retry_budget_and_error_condition_witness :
    (subcommand 0 5 [] (fun _ => .ok ()) creads0).1 = .ok ((creads0 9 100).2) :=
  (subcommand_retry_budget_and_error_condition 0 5 [] (fun _ => .ok ()) creads0).2.2
    (fun j hj hacc => by
      unfold acceptRead creads0 at hacc
      rcases hacc with h | h <;> simp at h)
    rfl 0 rfl

/-! ## Helper lemmas about stick normalization -/

theorem center_sticks_inside (x y t0 t1 t2 t3 t4 t5 dz : Nat)
    (h : ((x : ℚ) - t2) * ((x : ℚ) - t2) + ((y : ℚ) - t3) * ((y : ℚ) - t3) <
      ((dz * dz % 2 ^ 16 : Nat) : ℚ)) :
    center_sticks [x, y] [t0, t1, t2, t3, t4, t5] dz = (0, 0) := by
  unfold center_sticks
  simp only [List.getD_cons_zero, List.getD_cons_succ]
  rw [if_pos]
  rw [abs_of_nonneg (add_nonneg (mul_self_nonneg _) (mul_self_nonneg _))]
  exact h

theorem center_sticks_outside (x y t0 t1 t2 t3 t4 t5 dz : Nat)
    (h : ((dz * dz % 2 ^ 16 : Nat) : ℚ) ≤
      ((x : ℚ) - t2) * ((x : ℚ) - t2) + ((y : ℚ) - t3) * ((y : ℚ) - t3)) :
    center_sticks [x, y] [t0, t1, t2, t3, t4, t5] dz =
      (((x : ℚ) - t2) / (if 0 < (x : ℚ) - t2 then (t0 : ℚ) else (t4 : ℚ)),
       ((y : ℚ) - t3) / (if 0 < (y : ℚ) - t3 then (t1 : ℚ) else (t5 : ℚ))) := by
  unfold center_sticks
  simp only [List.getD_cons_zero, List.getD_cons_succ]
  rw [if_neg]
  exact not_lt.mpr (le_trans h (le_abs_self _))

/-! ## Claim theorems: stick normalization -/

/-- Counterexample for claim C2: at raw sample (2049, 2048), calibration
centers (2048, 2048) and deadzone 256, the claimed deadzone condition
dx*dx + dy*dy < dz*dz holds (1 < 65536), yet `center_sticks` does not return
(0, 0): the source squares the deadzone in 16-bit integer arithmetic
(`dz * dz` on `u16`), and 256 * 256 wraps to 0. -/
theorem center_sticks_deadzone_claim_counterexample :
    (((2049 : ℚ) - 2048) * ((2049 : ℚ) - 2048) +
        ((2048 : ℚ) - 2048) * ((2048 : ℚ) - 2048) < (256 : ℚ) * 256) ∧
      center_sticks [2049, 2048] [100, 100, 2048, 2048, 100, 100] 256 ≠ (0, 0) := by
  constructor
  · norm_num
  · have h := center_sticks_outside 2049 2048 100 100 2048 2048 100 100 256
      (by norm_num)
    rw [h]
    intro hc
    rw [Prod.ext_iff] at hc
    norm_num at hc

/-- Claim C2 as amended: `center_sticks` returns (0, 0) whenever
dx*dx + dy*dy is below the deadzone threshold actually computed by the code,
namely (dz * dz) mod 2^16 (the square is taken in 16-bit integer arithmetic
before conversion to float); in particular, for every deadzone dz up to 255
(where the 16-bit square cannot wrap) the originally claimed statement
dx*dx + dy*dy < dz*dz implies output (0, 0). -/
theorem center_sticks_deadzone_amended (x y t0 t1 t2 t3 t4 t5 dz : Nat) :
    (dz ≤ 255 →
      ((x : ℚ) - t2) * ((x : ℚ) - t2) + ((y : ℚ) - t3) * ((y : ℚ) - t3) <
        (dz : ℚ) * (dz : ℚ) →
      center_sticks [x, y] [t0, t1, t2, t3, t4, t5] dz = (0, 0)) ∧
    (((x : ℚ) - t2) * ((x : ℚ) - t2) + ((y : ℚ) - t3) * ((y : ℚ) - t3) <
        ((dz * dz % 2 ^ 16 : Nat) : ℚ) →
      center_sticks [x, y] [t0, t1, t2, t3, t4, t5] dz = (0, 0)) := by
  constructor
  · intro hdz h
    apply center_sticks_inside
    have hmod : dz * dz % 2 ^ 16 = dz * dz :=
      Nat.mod_eq_of_lt (lt_of_le_of_lt (Nat.mul_le_mul hdz hdz) (by norm_num))
    rw [hmod]
    push_cast
    exact h
  · exact center_sticks_inside x y t0 t1 t2 t3 t4 t5 dz

/-- Witness for the amended C2: raw (2050, 2048), centers (2048, 2048),
deadzone 10: the sample is inside the dead zone and the output is (0, 0). -/
theorem center_sticks_deadzone_amended_witness :
    center_sticks [2050, 2048] [100, 100, 2048, 2048, 100, 100] 10 = (0, 0) :=
  (center_sticks_deadzone_amended 2050 2048 100 100 2048 2048 100 100 10).1
    (by omega) (by norm_num)

/-- Claim C5: outside the dead zone, `center_sticks` scales each axis
independently (dx divided by max-above-x when dx > 0 else by max-below-x,
likewise for y) with no clamping; in particular with calibration
(max-above-x = 100, center-x = 0, max-below-x = 100, deadzone = 10) and raw
x = 50 the normalized x is 0.5, and an unclamped output of 2 (> 1) is
reachable. -/
theorem center_sticks_independent_axis_scaling (x y t0 t1 t2 t3 t4 t5 dz : Nat) :
    (((dz * dz % 2 ^ 16 : Nat) : ℚ) ≤
        ((x : ℚ) - t2) * ((x : ℚ) - t2) + ((y : ℚ) - t3) * ((y : ℚ) - t3) →
      center_sticks [x, y] [t0, t1, t2, t3, t4, t5] dz =
        (((x : ℚ) - t2) / (if 0 < (x : ℚ) - t2 then (t0 : ℚ) else (t4 : ℚ)),
         ((y : ℚ) - t3) / (if 0 < (y : ℚ) - t3 then (t1 : ℚ) else (t5 : ℚ)))) ∧
    (∀ y' t1' t3' t5' : Nat,
      (center_sticks [50, y'] [100, t1', 0, t3', 100, t5'] 10).1 = 1 / 2) ∧
    ((center_sticks [2148, 2048] [50, 100, 2048, 2048, 100, 100] 10).1 = 2 ∧
      (1 : ℚ) < 2) := by
  refine ⟨center_sticks_outside x y t0 t1 t2 t3 t4 t5 dz, ?_, ?_, by norm_num⟩
  · intro y' t1' t3' t5'
    have h := center_sticks_outside 50 y' 100 t1' 0 t3' 100 t5' 10
      (by
        have hs : (0 : ℚ) ≤ ((y' : ℚ) - t3') * ((y' : ℚ) - t3') :=
          mul_self_nonneg _
        norm_num
        nlinarith)
    rw [h]
    norm_num
  · have h := center_sticks_outside 2148 2048 50 100 2048 2048 100 100 10
      (by norm_num)
    rw [h]
    norm_num

/-- Witness for C5: a concrete sample outside the dead zone is scaled by the
unclamped per-axis formula. -/
theorem center_sticks_independent_axis_scaling_witness :
    center_sticks [50, 0] [100, 7, 0, 0, 100, 9] 10 =
      (((50 : ℚ) - 0) / (if 0 < (50 : ℚ) - 0 then (100 : ℚ) else (100 : ℚ)),
       ((0 : ℚ) - 0) / (if 0 < (0 : ℚ) - 0 then (7 : ℚ) else (9 : ℚ))) :=
  (center_sticks_independent_axis_scaling 50 0 100 7 0 0 100 9 10).1 (by norm_num)

/-! ## Claim theorems: bit packing -/

theorem lor_low_bits (y x k : Nat) (h : y < 2 ^ k) :
    y ||| x * 2 ^ k = 2 ^ k * x + y := by
  rw [Nat.lor_comm, mul_comm x (2 ^ k), ← Nat.mul_add_lt_is_or h]

/-- Claim C7: the 3-byte to 2-times-12-bit unpack primitive
(v0 = byte0 | ((byte1 & 0xF) << 8), v1 = (byte1 >> 4) | (byte2 << 4))
round-trips with its matching pack function on all 12-bit pairs. -/
theorem unpack_pack_roundtrip (a b : Nat) (ha : a < 4096) (_hb : b < 4096) :
    unpack (pack a b) = (a, b) := by
  unfold unpack pack
  simp only [List.getD_cons_zero, List.getD_cons_succ]
  have e255 : a &&& 255 = a % 256 := Nat.and_pow_two_sub_one_eq_mod a 8
  have eb15 : b &&& 15 = b % 16 := Nat.and_pow_two_sub_one_eq_mod b 4
  rw [e255, eb15]
  simp only [Nat.shiftLeft_eq, Nat.shiftRight_eq_div_pow]
  norm_num
  have hi : a / 256 ||| b % 16 * 16 = 16 * (b % 16) + a / 256 := by
    have h := lor_low_bits (a / 256) (b % 16) 4 (by omega)
    norm_num at h
    exact h
  rw [hi]
  rw [show (16 * (b % 16) + a / 256) &&& 15 = (16 * (b % 16) + a / 256) % 16 from
    Nat.and_pow_two_sub_one_eq_mod _ 4]
  rw [show (16 * (b % 16) + a / 256) % 16 = a / 256 by omega]
  rw [show (16 * (b % 16) + a / 256) / 16 = b % 16 by omega]
  have h2 := lor_low_bits (a % 256) (a / 256) 8 (by omega)
  have h3 := lor_low_bits (b % 16) (b / 16) 4 (by omega)
  norm_num at h2 h3
  rw [h2, h3]
  omega

/-- Witness for C7 at the 12-bit pair (0xABC, 0x123). -/
theorem unpack_pack_roundtrip_witness : unpack (pack 0xABC 0x123) = (0xABC, 0x123) :=
  unpack_pack_roundtrip 0xABC 0x123 (by omega) (by omega)

/-! ## Claim theorems: SPI flash read -/

/-- An exchange oracle that only accepts the payload the spec describes for a
flash read at address 0x8012 of size 9 (little-endian address, two reserved
zero bytes, then the size). -/
def specPayloadOracle : Nat → List Nat → Except String (List Nat) :=
  fun sc p =>
    if sc = 0x10 ∧ p = [0x12, 0x80, 0, 0, 0, 0, 9] then .ok (List.replicate 48 1)
    else .error ("payload mismatch")

/-- Counterexample for claim C3: `read_spi 0x8012 9` does not issue the
7-byte payload address ++ [0, 0] ++ [size] the claim describes — against an
oracle accepting exactly that payload the exchange is refused; the actual
payload is the 5-byte [0x12, 0x80, 0, 0, 9]: the two bytes the claim calls
reserved zeros are overwritten by the high half of the little-endian
address, and the size byte follows immediately. -/
theorem read_spi_payload_claim_counterexample :
    read_spi 0x8012 9 specPayloadOracle = some (.error ("payload mismatch")) ∧
      readSpiCmd 0x8012 9 = [0x12, 0x80, 0, 0, 9] := by
  constructor
  · rfl
  · rfl

/-- Claim C3 as amended: `read_spi from size` returns an error without
consulting the exchange oracle exactly when size > 0x1d; for any size within
the guard it issues one exchange with subcommand id 0x10 whose payload is
the little-endian 4-byte address followed directly by the size byte (5
bytes, no reserved bytes); for size < 0x1d a successful exchange returns
exactly the `size` reply bytes starting at offset 20; at size = 0x1d exactly
(allowed by the guard), a successful exchange ends in the slice panic on
`buf_[20..49]` of the 48-byte reply buffer instead of returning. -/
theorem read_spi_payload_amended (a : Int) (size : Nat)
    (ex : Nat → List Nat → Except String (List Nat)) :
    (0x1d < size → read_spi a size ex = some (.error ("Reading size > 0x1d"))) ∧
    (size ≤ 0x1d →
      readSpiCmd a size =
        [i32LeByte a 0, i32LeByte a 1, i32LeByte a 2, i32LeByte a 3, size]) ∧
    (size < 0x1d → ∀ reply, ex 0x10 (readSpiCmd a size) = .ok reply →
      read_spi a size ex = some (.ok ((reply.drop 20).take size))) ∧
    (size = 0x1d → ∀ reply, ex 0x10 (readSpiCmd a size) = .ok reply →
      read_spi a size ex = none) := by
  have hcmd : readSpiCmd a size =
      [i32LeByte a 0, i32LeByte a 1, i32LeByte a 2, i32LeByte a 3, size] := by
    simp [readSpiCmd, setSlice]
  refine ⟨?_, fun _ => hcmd, ?_, ?_⟩
  · intro hgt
    unfold read_spi
    rw [if_pos hgt]
  · intro hlt reply hreply
    unfold read_spi
    rw [if_neg (by omega), hreply]
    simp only []
    rw [if_pos (by unfold REPORT_LEN; omega)]
  · intro heq reply hreply
    unfold read_spi
    rw [if_neg (by omega), hreply]
    simp only []
    rw [if_neg (by unfold REPORT_LEN; omega)]

/-- Witness for the amended C3: a size-2 read at address 0x6050 against an
oracle returning bytes 0..47 yields the two bytes at offsets 20 and 21,
while a size-0x1d read against the same oracle hits the slice panic. -/
theorem read_spi_payload_amended_witness :
    read_spi 0x6050 2 (fun _ _ => .ok (List.range 48)) = some (.ok [20, 21]) ∧
      read_spi 0x6050 0x1d (fun _ _ => .ok (List.range 48)) = none := by
  constructor
  · have h := (read_spi_payload_amended 0x6050 2
      (fun _ _ => .ok (List.range 48))).2.2.1 (by omega) (List.range 48) rfl
    rw [h]
    rfl
  · exact (read_spi_payload_amended 0x6050 0x1d
      (fun _ _ => .ok (List.range 48))).2.2.2 rfl (List.range 48) rfl

/-! ## Helper lemmas about calibration acquisition -/

/-- The stick-calibration array selected by `side`
(`if side { &mut self.lstick_cal } else { &mut self.rstick_cal }`). -/
def calPart (side : Bool) (st : Ctrl) : List Nat :=
  if side then st.lstick_cal else st.rstick_cal

theorem rscFinish_spec (spi : Int → Nat → Except String (List Nat)) (d : Int)
    (side : Bool) (st : Ctrl) (buf : List Nat) (reads : List (Int × Nat)) :
    (rscFinish spi d side st buf reads).2.2 = reads ++ [(d, 16)] ∧
    calPart side (rscFinish spi d side st buf reads).2.1 =
      decodeStickCal side buf (calPart side st) := by
  unfold rscFinish calPart
  cases hd : spi d 16 <;> cases side <;> simp

theorem getD_lt_256 (l : List Nat) (h : ∀ v ∈ l, v < 256) :
    ∀ i : Nat, l.getD i 0 < 256 := by
  induction l with
  | nil => intro i; simp [List.getD]
  | cons a t ih =>
      intro i
      cases i with
      | zero => simpa using h a (by simp)
      | succ n =>
          simp only [List.getD_cons_succ]
          exact ih (fun v hv => h v (by simp [hv])) n

theorem decode_lo_lt (b1 b0 : Nat) (h0 : b0 < 256) :
    (b1 <<< 8) &&& 0xF00 ||| b0 < 4096 := by
  have hl : (b1 <<< 8) &&& 0xF00 < 2 ^ 12 :=
    lt_of_le_of_lt Nat.and_le_right (by norm_num)
  have hr : b0 < 2 ^ 12 := lt_of_lt_of_le h0 (by norm_num)
  have h := Nat.or_lt_two_pow hl hr
  simpa using h

theorem decode_hi_lt (b2 b1 : Nat) (h2 : b2 < 256) (h1 : b1 < 256) :
    (b2 <<< 4) ||| (b1 >>> 4) < 4096 := by
  have hl : b2 <<< 4 < 2 ^ 12 := by
    rw [Nat.shiftLeft_eq]
    norm_num
    omega
  have hr : b1 >>> 4 < 2 ^ 12 := by
    rw [Nat.shiftRight_eq_div_pow]
    have h := Nat.div_le_self b1 (2 ^ 4)
    norm_num at h ⊢
    omega
  have h := Nat.or_lt_two_pow hl hr
  simpa using h

theorem decodeDeadzone_lt (dbuf : List Nat) (h : ∀ v ∈ dbuf, v < 256) :
    decodeDeadzone dbuf < 4096 :=
  decode_lo_lt _ _ (getD_lt_256 dbuf h 3)

theorem decodeStickCal_all_lt (side : Bool) (buf cal : List Nat)
    (hcal : cal.length = 6) (hbuf : ∀ v ∈ buf, v < 256) :
    ∀ v ∈ decodeStickCal side buf cal, v < 4096 := by
  have hb : ∀ i : Nat, buf[i]?.getD 0 < 256 := by
    intro i
    have h := getD_lt_256 buf hbuf i
    simpa using h
  rcases cal with _ | ⟨c0, _ | ⟨c1, _ | ⟨c2, _ | ⟨c3, _ | ⟨c4, _ | ⟨c5, rest⟩⟩⟩⟩⟩⟩ <;>
    simp at hcal
  cases rest with
  | cons c6 t => simp at hcal
  | nil =>
      cases side <;>
      · simp only [decodeStickCal, List.getD_cons_zero, List.getD_cons_succ]
        intro v hv
        simp [List.set] at hv
        rcases hv with h | h | h | h | h | h <;> subst h
        all_goals
          first
          | exact decode_lo_lt _ _ (hb _)
          | exact decode_hi_lt _ _ (hb _) (hb _)

theorem rscFinish_ok_shape (spi : Int → Nat → Except String (List Nat)) (d : Int)
    (side : Bool) (st : Ctrl) (buf : List Nat) (reads : List (Int × Nat))
    (r : Nat) (st2 : Ctrl) (rds : List (Int × Nat))
    (h : rscFinish spi d side st buf reads = (.ok r, st2, rds)) :
    ∃ dbuf, spi d 16 = .ok dbuf ∧ r = decodeDeadzone dbuf ∧
      st2 = (if side then { st with lstick_cal := decodeStickCal true buf st.lstick_cal }
             else { st with rstick_cal := decodeStickCal false buf st.rstick_cal }) := by
  unfold rscFinish at h
  cases side with
  | true =>
      simp only [eq_self_iff_true, if_true] at h ⊢
      split at h
      · simp at h
      next dbuf heqd =>
        simp only [Prod.mk.injEq, Except.ok.injEq] at h
        exact ⟨dbuf, heqd, h.1.symm, h.2.1.symm⟩
  | false =>
      simp only [Bool.false_eq_true, if_false] at h ⊢
      split at h
      · simp at h
      next dbuf heqd =>
        simp only [Prod.mk.injEq, Except.ok.injEq] at h
        exact ⟨dbuf, heqd, h.1.symm, h.2.1.symm⟩

theorem rsc_ok_shape (spi : Int → Nat → Except String (List Nat)) (u f d : Int)
    (side : Bool) (st : Ctrl) (r : Nat) (st2 : Ctrl) (rds : List (Int × Nat))
    (h : read_stick_calibration spi u f d side st = (.ok r, st2, rds)) :
    ∃ buf dbuf, (spi u 9 = .ok buf ∨ spi f 9 = .ok buf) ∧ spi d 16 = .ok dbuf ∧
      r = decodeDeadzone dbuf ∧
      st2 = (if side then { st with lstick_cal := decodeStickCal true buf st.lstick_cal }
             else { st with rstick_cal := decodeStickCal false buf st.rstick_cal }) := by
  unfold read_stick_calibration at h
  split at h
  · simp at h
  next ubuf heq =>
    rcases Bool.eq_false_or_eq_true (ubuf.any fun i => !(i == 0xff || i == 0x00)) with
      hfo | hfo
    · simp only [hfo, eq_self_iff_true, if_true] at h
      obtain ⟨dbuf, hd, hr, hst⟩ :=
        rscFinish_ok_shape spi d side st ubuf [(u, 9)] r st2 rds h
      exact ⟨ubuf, dbuf, Or.inl heq, hd, hr, hst⟩
    · simp only [hfo, Bool.false_eq_true, if_false] at h
      split at h
      · simp at h
      next fbuf heqf =>
        obtain ⟨dbuf, hd, hr, hst⟩ :=
          rscFinish_ok_shape spi d side st fbuf [(u, 9), (f, 9)] r st2 rds h
        exact ⟨fbuf, dbuf, Or.inr heqf, hd, hr, hst⟩

/-! ## Claim theorems: calibration acquisition -/

/-- Claim C6: `read_stick_calibration` issues a second 9-byte flash read at
the factory address and decodes the calibration from that factory block
exactly when every byte of the user block is 0xFF or 0x00; if some byte has
any other value, the user block is decoded and no factory read is issued
(the reads performed are then exactly the user read and the deadzone read). -/
theorem read_stick_calibration_presence_check
    (spi : Int → Nat → Except String (List Nat)) (u f d : Int)
    (side : Bool) (st : Ctrl) (ubl : List Nat)
    (hu : spi u 9 = .ok ubl) :
    ((∀ bb ∈ ubl, bb = 0xff ∨ bb = 0x00) → ∀ fbl, spi f 9 = .ok fbl →
      (read_stick_calibration spi u f d side st).2.2 = [(u, 9), (f, 9), (d, 16)] ∧
      calPart side (read_stick_calibration spi u f d side st).2.1 =
        decodeStickCal side fbl (calPart side st)) ∧
    ((∃ bb ∈ ubl, ¬(bb = 0xff ∨ bb = 0x00)) →
      (read_stick_calibration spi u f d side st).2.2 = [(u, 9), (d, 16)] ∧
      calPart side (read_stick_calibration spi u f d side st).2.1 =
        decodeStickCal side ubl (calPart side st)) := by
  constructor
  · intro hall fbl hf
    have hfound : (ubl.any fun i => !(i == 0xff || i == 0x00)) = false := by
      rw [List.any_eq_false]
      intro x hx
      rcases hall x hx with h | h <;> simp [h]
    unfold read_stick_calibration
    rw [hu]
    simp only [hfound, Bool.false_eq_true, if_false, hf]
    have h := rscFinish_spec spi d side st fbl [(u, 9), (f, 9)]
    exact ⟨h.1, h.2⟩
  · intro hsome
    have hfound : (ubl.any fun i => !(i == 0xff || i == 0x00)) = true := by
      rw [List.any_eq_true]
      obtain ⟨x, hx, hne⟩ := hsome
      push_neg at hne
      exact ⟨x, hx, by simp [hne.1, hne.2]⟩
    unfold read_stick_calibration
    rw [hu]
    simp only [hfound, if_true]
    have h := rscFinish_spec spi d side st ubl [(u, 9)]
    exact ⟨h.1, h.2⟩

/-- The initial controller state built by `ProController::new`: zeroed
calibration arrays and deadzones. -/
def ctrl0 : Ctrl := ⟨List.replicate 6 0, List.replicate 6 0, 0, 0⟩

/-- A flash oracle returning all-ones blocks of the requested size. -/
def spiOnes : Int → Nat → Except String (List Nat) :=
  fun _ s => .ok (List.replicate s 1)

/-- A flash oracle that fails at the right stick's user-calibration address
0x801d and returns all-fives blocks everywhere else. -/
def spiFail : Int → Nat → Except String (List Nat) :=
  fun a s => if a = (0x801d : Int) then .error ("boom") else .ok (List.replicate s 5)

/-- A flash oracle with an all-0xFF (sentinel) user block at address 5, an
all-sevens factory block elsewhere, and zero deadzone blocks. -/
def spiSentinel : Int → Nat → Except String (List Nat) :=
  fun a s =>
    if s = 9 then
      (if a = (5 : Int) then .ok (List.replicate 9 0xff) else .ok (List.replicate 9 7))
    else .ok (List.replicate 16 0)

/-- Witness for C6: with a sentinel user block, the factory block at address
6 is read and decoded. -/
theorem read_stick_calibration_presence_check_witness :
    (read_stick_calibration spiSentinel 5 6 7 true ctrl0).2.2 =
        [(5, 9), (6, 9), (7, 16)] ∧
      calPart true (read_stick_calibration spiSentinel 5 6 7 true ctrl0).2.1 =
        decodeStickCal true (List.replicate 9 7) (calPart true ctrl0) :=
  (read_stick_calibration_presence_check spiSentinel 5 6 7 true ctrl0
      (List.replicate 9 0xff) rfl).1
    (fun _bb hbb => Or.inl (List.eq_of_mem_replicate hbb)) (List.replicate 9 7) rfl

/-- Claim C9: after every successful run of `calibrate`, all six fields of
each stick's calibration sextet and both deadzones lie in [0, 4095], for any
byte-valued blocks returned by the flash reads. -/
theorem calibrate_fields_within_12_bits
    (spi : Int → Nat → Except String (List Nat)) (st : Ctrl)
    (hb : ∀ (a : Int) (s : Nat) (bl : List Nat), spi a s = .ok bl → ∀ v ∈ bl, v < 256)
    (hl : st.lstick_cal.length = 6) (hr : st.rstick_cal.length = 6)
    (hok : (calibrate spi st).1 = .ok ()) :
    (∀ v ∈ (calibrate spi st).2.lstick_cal, v < 4096) ∧
    (∀ v ∈ (calibrate spi st).2.rstick_cal, v < 4096) ∧
    (calibrate spi st).2.ldeadzone < 4096 ∧
    (calibrate spi st).2.rdeadzone < 4096 := by
  unfold calibrate at hok ⊢
  rcases h1 : read_stick_calibration spi 0x8012 0x603d 0x6086 true st with
    ⟨res1, st1, rds1⟩
  rw [h1] at hok
  cases res1 with
  | error e => simp at hok
  | ok ldz =>
      simp only [] at hok ⊢
      rcases h2 : read_stick_calibration spi 0x801d 0x6046 0x6098 false
        { st1 with ldeadzone := ldz } with ⟨res2, st2, rds2⟩
      rw [h2] at hok
      cases res2 with
      | error e => simp at hok
      | ok rdz =>
          simp only []
          obtain ⟨bufL, dbufL, hgetL, hdL, hrL, hstL⟩ :=
            rsc_ok_shape spi 0x8012 0x603d 0x6086 true st ldz st1 rds1 h1
          obtain ⟨bufR, dbufR, hgetR, hdR, hrR, hstR⟩ :=
            rsc_ok_shape spi 0x801d 0x6046 0x6098 false { st1 with ldeadzone := ldz }
              rdz st2 rds2 h2
          simp only [eq_self_iff_true, if_true] at hstL
          simp only [Bool.false_eq_true, if_false] at hstR
          have hbufL : ∀ v ∈ bufL, v < 256 := by
            rcases hgetL with hg | hg <;> exact hb _ _ _ hg
          have hbufR : ∀ v ∈ bufR, v < 256 := by
            rcases hgetR with hg | hg <;> exact hb _ _ _ hg
          subst hstR
          subst hstL
          refine ⟨?_, ?_, ?_, ?_⟩
          · simpa using decodeStickCal_all_lt true bufL st.lstick_cal hl hbufL
          · simpa using decodeStickCal_all_lt false bufR st.rstick_cal hr hbufR
          · simpa [hrL] using decodeDeadzone_lt dbufL (hb _ _ _ hdL)
          · simpa [hrR] using decodeDeadzone_lt dbufR (hb _ _ _ hdR)

/-- Witness for C9: a run of `calibrate` against the all-ones flash oracle
succeeds and yields in-range fields. -/
theorem calibrate_fields_within_12_bits_witness :
    (∀ v ∈ (calibrate spiOnes ctrl0).2.lstick_cal, v < 4096) ∧
      (calibrate spiOnes ctrl0).2.ldeadzone < 4096 := by
  have h := calibrate_fields_within_12_bits spiOnes ctrl0
    (fun a s bl hbl v hv => by
      simp only [spiOnes, Except.ok.injEq] at hbl
      subst hbl
      rw [List.eq_of_mem_replicate hv]
      omega)
    rfl rfl rfl
  exact ⟨h.1, h.2.2.1⟩

/-- Claim C10: `calibrate` is not atomic on failure.  With a flash oracle
that fails exactly at the right stick's user-calibration address, `calibrate`
returns an error, yet the left stick's calibration sextet and the left
deadzone have already been overwritten with the newly decoded values
(the right stick's array is still the initial one). -/
theorem calibrate_not_atomic_on_right_stick_failure :
    (calibrate spiFail ctrl0).1 = .error ("boom") ∧
    (calibrate spiFail ctrl0).2.lstick_cal =
      decodeStickCal true (List.replicate 9 5) ctrl0.lstick_cal ∧
    (calibrate spiFail ctrl0).2.lstick_cal ≠ ctrl0.lstick_cal ∧
    (calibrate spiFail ctrl0).2.ldeadzone ≠ ctrl0.ldeadzone ∧
    (calibrate spiFail ctrl0).2.rstick_cal = ctrl0.rstick_cal :=
  ⟨rfl, rfl, by decide, by decide, rfl⟩

end ProController
